import Mathlib

/-!
Shallow embedding of the message-aggregation and participation-equity core of
the `blinkist-slack-plugin` repository:

* `src/utils/metrics/pei.py` — class `ParticipationEquityIndex`, the Gini-based
  Participation Equity Index metric;
* `src/utils/message_retriever.py` — class `MessageRetriever`, the Slack
  history/thread retrieval, normalization and deduplication pipeline.

Python floats are modelled by `ℚ` (the Gini computation is a single exact
division of small integers), pandas DataFrames by `List Row`, Python dicts by
structures with `Option` fields for keys accessed through `.get`, and raised /
caught exceptions by `Except`-valued collaborator functions.  Unbounded
`while True` pagination loops are modelled with an explicit fuel parameter;
running out of fuel returns `none`, so non-termination is observable.
-/

/-- One row of the normalized message DataFrame that
`MessageRetriever.get_channel_messages` builds (message_retriever.py, lines
92–104 for channel-level rows and 326–338 for thread-reply rows).  The derived
`ts` datetime column is omitted: it is computed from `ts_str` and never
consulted by the operations verified here.  The Python `type` column is named
`mtype` (`type` clashes with a Lean keyword). -/
structure Row where
  channel_id : String
  channel_name : String
  ts_str : String
  message : String
  mtype : String
  subtype : String
  is_thread : Bool
  is_parent : Option Bool
  user_id : Option String
  thread_id : String
  reactions : List (String × Nat)
deriving DecidableEq, Repr

/-- A raw Slack message object as returned by the Web API
(`conversations_history` / `conversations_replies`).  Fields read through
`message.get(key)` with no default are `Option`-valued;
`message.get("reply_count", 0)` defaults to `0`. -/
structure SlackMsg where
  ts : String
  text : Option String
  mtype : Option String
  subtype : Option String
  user : Option String
  thread_ts : Option String
  reply_count : Nat
deriving DecidableEq, Repr

/-- First-occurrence-order duplicate removal, the semantics of both
`pandas.Series.unique()` and the set of group keys of a pandas `groupby`:
keep each element once, at its first position of appearance. -/
def uniques {α : Type} [BEq α] : List α → List α
  | [] => []
  | x :: xs => x :: (uniques xs).filter (fun y => ! (y == x))

namespace ParticipationEquityIndex

/-- Minimum number of messages required in a channel to compute PEI
(pei.py line 10, `MIN_MESSAGES_FOR_PEI`). -/
def MIN_MESSAGES_FOR_PEI : Nat := 10

/-- Insert a value into an ascending-sorted list of counts, keeping order. -/
def insertSorted (x : Nat) : List Nat → List Nat
  | [] => [x]
  | y :: ys => if x ≤ y then x :: y :: ys else y :: insertSorted x ys

/-- Python `sorted(channel_counts)` (pei.py line 71): sort the per-user message
counts ascending (insertion sort; Python's Timsort stability is immaterial for
a list of naturals). -/
def sortCounts : List Nat → List Nat
  | [] => []
  | x :: xs => insertSorted x (sortCounts xs)

/-- The weighted sum `sum((2*i - n - 1) * x for i, x in enumerate(sorted_counts,
start=1))` of pei.py lines 91–94, with the start index `i` explicit so the
recursion is structural. -/
def weightedSum (n : ℤ) : ℤ → List Nat → ℤ
  | _, [] => 0
  | i, x :: xs => (2 * i - n - 1) * (x : ℤ) + weightedSum n (i + 1) xs

/-- Gini coefficient of a list of per-user counts (pei.py lines 91–95):
`abs(weighted_sum / (n * total_sum))` where the counts are first sorted
ascending, `n = len(sorted_counts)`, `total_sum = sum(sorted_counts)` and `i`
ranges over 1-based ranks. -/
def giniOfCounts (counts : List Nat) : ℚ :=
  |((weightedSum ((sortCounts counts).length : ℤ) 1 (sortCounts counts) : ℤ) : ℚ)| /
    (((sortCounts counts).length : ℚ) * ((sortCounts counts).sum : ℚ))

/-- The per-channel body of `ParticipationEquityIndex.compute` (pei.py lines
58–108): `none` models `continue` (no PEI emitted for the channel).  A channel
absent from the grouped counts raises `KeyError` in the source and is skipped;
here its count list is `[]`, which the `< 2` users check skips the same way.
The `total_sum == 0` guard of line 83 is kept although it is unreachable after
the `< MIN_MESSAGES_FOR_PEI` guard, exactly as in the source. -/
def computeChannel (counts : List Nat) : Option ℚ :=
  if counts.length < 2 then none
  else if (sortCounts counts).sum < MIN_MESSAGES_FOR_PEI then none
  else if (sortCounts counts).sum = 0 then none
  else some (1 - giniOfCounts counts)

/-- The subtype filter of pei.py line 48:
`df[df['subtype'].isin(['message', 'thread_broadcast'])]`. -/
def validMessages (df : List Row) : List Row :=
  df.filter (fun r => r.subtype == "message" || r.subtype == "thread_broadcast")

/-- The distinct users of a channel among the filtered rows: the second-level
group keys of `valid_messages.groupby(['channel_name', 'user_id']).size()`
(pei.py line 51).  pandas drops rows whose `user_id` is null from the group
keys (`dropna=True` default), hence the `filterMap`.  pandas also sorts the
group keys; the order is immaterial because the counts are re-sorted by
`sortCounts` before use, so first-appearance order is kept here. -/
def channelUsers (df : List Row) (ch : String) : List String :=
  uniques ((validMessages df).filterMap
    (fun r => if r.channel_name == ch then r.user_id else none))

/-- The size of the `(ch, u)` group of pei.py line 51: how many filtered rows
channel `ch` has from user `u`. -/
def countFor (df : List Row) (ch : String) (u : String) : Nat :=
  ((validMessages df).filter
    (fun r => r.channel_name == ch && r.user_id == some u)).length

/-- The per-user count series `user_counts[channel_name]` of pei.py line 60:
one count per distinct posting user of the channel. -/
def channelCounts (df : List Row) (ch : String) : List Nat :=
  (channelUsers df ch).map (countFor df ch)

/-- The channel iteration order `df['channel_name'].unique()` of pei.py
line 57 (note: taken over the unfiltered frame). -/
def channelsOf (df : List Row) : List String :=
  uniques (df.map (fun r => r.channel_name))

/-- `ParticipationEquityIndex.compute` (pei.py lines 46–110): the per-channel
PEI mapping, as an association list in channel-iteration order.  Channels that
fail any guard are absent, exactly as the source's `continue` leaves them out
of `pei_values`. -/
def compute (df : List Row) : List (String × ℚ) :=
  (channelsOf df).filterMap
    (fun ch => (computeChannel (channelCounts df ch)).map (fun q => (ch, q)))

end ParticipationEquityIndex

namespace MessageRetriever

/-- Parameters of one page request that vary across loop iterations of the
pagination loops (message_retriever.py lines 220–234 and 298–312): the
`latest` time bound and the pagination `cursor`.  The constant parameters
(`channel`, `oldest`, `ts`, `inclusive`, `limit`) are absorbed into the api
function supplied to the loop. -/
structure HistReq where
  latest : Option String
  cursor : Option String
deriving DecidableEq, Repr

/-- One response of `conversations_history` / `conversations_replies` as read
by the loops: `ok`, the `messages` page, `has_more`, and
`response_metadata.next_cursor` (where `none` also models the falsy empty
string, since the source tests the cursor with `if not cursor`). -/
structure HistResp where
  ok : Bool
  messages : List SlackMsg
  has_more : Bool
  next_cursor : Option String
deriving Repr

/-- One response of `conversations_info` as read by `_get_channel_info`. -/
structure InfoResp where
  ok : Bool
  name : String
deriving DecidableEq, Repr

/-- One response of `reactions_get` as read by `_get_message_reactions`:
`resp.reactions` is the reaction list of `response["message"]["reactions"]`,
with `[]` standing for a response lacking those keys. -/
structure ReactResp where
  ok : Bool
  reactions : List (String × Nat)
deriving DecidableEq, Repr

/-- The channel-level row built by `get_channel_messages` for one fetched
message (message_retriever.py lines 75–104). -/
def mainRow (channel_id channel_name : String) (m : SlackMsg) : Row :=
  { channel_id := channel_id
    channel_name := channel_name
    ts_str := m.ts
    message := m.text.getD ""
    mtype := m.mtype.getD "message"
    subtype := m.subtype.getD "message"
    is_thread := m.thread_ts.isSome
    is_parent := m.thread_ts.map (fun t => m.ts == t)
    user_id := m.user
    thread_id := match m.thread_ts with | some t => t | none => m.ts
    reactions := [] }

/-- The thread-reply row built by `_get_thread_replies` (message_retriever.py
lines 326–338).  The source compares `reply.get("ts") == reply.get("thread_ts")`,
i.e. a string against a possibly-missing value, hence the `Option` equality. -/
def replyRow (channel_id channel_name thread_ts : String) (reply : SlackMsg) : Row :=
  { channel_id := channel_id
    channel_name := channel_name
    ts_str := reply.ts
    message := reply.text.getD ""
    mtype := reply.mtype.getD "message"
    subtype := reply.subtype.getD "message"
    is_thread := true
    is_parent := some (some reply.ts == reply.thread_ts)
    user_id := reply.user
    thread_id := thread_ts
    reactions := [] }

/-- The deduplication key of message_retriever.py lines 135–138:
`subset=["channel_id", "ts_str", "user_id", "message"]`. -/
def dedupKey (r : Row) : String × String × Option String × String :=
  (r.channel_id, r.ts_str, r.user_id, r.message)

/-- Recursive core of `drop_duplicates(..., keep="first")`: keep a row iff its
key has not been seen earlier in the traversal. -/
def dedupAux (seen : List (String × String × Option String × String)) :
    List Row → List Row
  | [] => []
  | r :: rs =>
    if dedupKey r ∈ seen then dedupAux seen rs
    else r :: dedupAux (dedupKey r :: seen) rs

/-- `df.drop_duplicates(subset=["channel_id", "ts_str", "user_id", "message"],
keep="first")` (message_retriever.py lines 135–138): first-occurrence-wins
deduplication, preserving table order. -/
def dedup (df : List Row) : List Row := dedupAux [] df

/-- `MessageRetriever._get_channel_info` (lines 159–191): an exception or a
non-ok response is caught and yields `None`; otherwise the channel name is
returned. -/
def getChannelInfo (api : String → Except Unit InfoResp) (channel_id : String) :
    Option String :=
  match api channel_id with
  | Except.error _ => none
  | Except.ok resp => if resp.ok then some resp.name else none

/-- The `while True` pagination loop of `_get_channel_history` (lines
219–262), with explicit fuel: `none` means the fuel ran out with the loop
still running (the source loop has no iteration bound of its own).  A raised
exception from the api call is caught by the method's `try`/`except`, which
returns `[]`; a non-ok response returns the messages accumulated so far;
otherwise the page is appended, then the loop stops when `has_more` is falsy
or no `next_cursor` is present, else it continues with the new cursor and the
last message's `ts` as the `latest` bound. -/
def historyLoop (api : HistReq → Except Unit HistResp) :
    Nat → List SlackMsg → Option String → Option String → Option (List SlackMsg)
  | 0, _, _, _ => none
  | fuel + 1, acc, latest, cursor =>
    match api ⟨latest, cursor⟩ with
    | Except.error _ => some []
    | Except.ok resp =>
      if resp.ok = false then some acc
      else
        let acc2 := acc ++ resp.messages
        if resp.has_more = false then some acc2
        else
          let latest2 := match resp.messages.getLast? with
            | some m => some m.ts
            | none => latest
          match resp.next_cursor with
          | none => some acc2
          | some c => historyLoop api fuel acc2 latest2 (some c)

/-- `MessageRetriever._get_channel_history` (lines 194–274): run the
pagination loop from an empty accumulator with no `latest` bound and no
cursor. -/
def getChannelHistory (api : HistReq → Except Unit HistResp) (fuel : Nat) :
    Option (List SlackMsg) :=
  historyLoop api fuel [] none none

/-- The `while True` pagination loop of `_get_thread_replies` (lines 297–352),
with explicit fuel as in `historyLoop`.  Here the surrounding `try`/`except`
is outside the loop and ends with `return thread_messages`, so both an
exception and a non-ok response yield the rows accumulated so far.  Each page
drops its first message (the thread parent, already present from the
channel-level fetch) and appends the rest as reply rows. -/
def repliesLoop (api : HistReq → Except Unit HistResp)
    (channel_id channel_name thread_ts : String) :
    Nat → List Row → Option String → Option String → Option (List Row)
  | 0, _, _, _ => none
  | fuel + 1, acc, latest, cursor =>
    match api ⟨latest, cursor⟩ with
    | Except.error _ => some acc
    | Except.ok resp =>
      if resp.ok = false then some acc
      else
        let newRows := match resp.messages with
          | [] => []
          | _ :: rest => rest.map (replyRow channel_id channel_name thread_ts)
        let acc2 := acc ++ newRows
        if resp.has_more = false then some acc2
        else
          let latest2 := match resp.messages.getLast? with
            | some m => some m.ts
            | none => latest
          match resp.next_cursor with
          | none => some acc2
          | some c =>
            repliesLoop api channel_id channel_name thread_ts fuel acc2 latest2 (some c)

/-- `MessageRetriever._get_thread_replies` (lines 276–363); `getD []` is the
modelling choice for the fuel-exhausted (non-terminating) run, which has no
Python return value. -/
def getThreadReplies (api : HistReq → Except Unit HistResp)
    (channel_id thread_ts channel_name : String) (fuel : Nat) : List Row :=
  (repliesLoop api channel_id channel_name thread_ts fuel [] none none).getD []

/-- `MessageRetriever._get_message_reactions` (lines 365–404): an exception or
non-ok response is caught and yields the empty mapping. -/
def getMessageReactions (api : String → String → Except Unit ReactResp)
    (channel_id timestamp : String) : List (String × Nat) :=
  match api channel_id timestamp with
  | Except.error _ => []
  | Except.ok resp => if resp.ok then resp.reactions else []

/-- The per-channel body of the `for channel_id in channel_id_list` loop of
`get_channel_messages` (lines 64–124): a failed channel-info lookup skips the
channel (contributes no rows); otherwise every history message becomes a row,
followed by its thread replies when it carries a `thread_ts` and declares
`reply_count > 0`.  All collaborator exceptions are caught inside the callees,
so the per-channel `except ... continue` has nothing further to absorb here. -/
def processChannel (infoApi : String → Except Unit InfoResp)
    (histApi : String → HistReq → Except Unit HistResp)
    (replApi : String → String → HistReq → Except Unit HistResp)
    (fuel : Nat) (channel_id : String) : List Row :=
  match getChannelInfo infoApi channel_id with
  | none => []
  | some channel_name =>
    let msgs := (getChannelHistory (histApi channel_id) fuel).getD []
    msgs.flatMap (fun m =>
      mainRow channel_id channel_name m ::
        (match m.thread_ts with
         | some tts =>
           if 0 < m.reply_count then
             getThreadReplies (replApi channel_id tts) channel_id tts channel_name fuel
           else []
         | none => []))

/-- Channel-list resolution at the top of `get_channel_messages` (lines
55–56): an explicitly supplied list is used as-is, otherwise
`channel_tracker.get_installed_channels()` is consulted and may throw. -/
def resolveChannels (tracker : Except Unit (List String)) :
    Option (List String) → Except Unit (List String)
  | some l => Except.ok l
  | none => tracker

/-- `MessageRetriever.get_channel_messages` (lines 23–157): resolve the
channel list (an exception here is caught by the outer `try`/`except` and
yields the empty table), return the empty table when the list is empty,
otherwise concatenate the per-channel rows, deduplicate, and attach the
per-message reactions.  The `ts` datetime conversion (line 131) is omitted:
it adds a derived column not consulted by any verified operation. -/
def getChannelMessages (tracker : Except Unit (List String))
    (infoApi : String → Except Unit InfoResp)
    (histApi : String → HistReq → Except Unit HistResp)
    (replApi : String → String → HistReq → Except Unit HistResp)
    (reactApi : String → String → Except Unit ReactResp)
    (fuel : Nat) (channel_id_list : Option (List String)) : List Row :=
  match resolveChannels tracker channel_id_list with
  | Except.error _ => []
  | Except.ok channels =>
    if channels.isEmpty then []
    else
      (dedup (channels.flatMap (processChannel infoApi histApi replApi fuel))).map
        (fun r =>
          { r with reactions := getMessageReactions reactApi r.channel_id r.ts_str })

end MessageRetriever

/-- Fixture row for PEI-level statements: only `channel_name`, `user_id` and
`subtype` are read by `ParticipationEquityIndex.compute`. -/
def mkPeiRow (ch : String) (u : Option String) (st : String) : Row :=
  { channel_id := "C1", channel_name := ch, ts_str := "1700000000.000100",
    message := "hi", mtype := "message", subtype := st, is_thread := false,
    is_parent := none, user_id := u, thread_id := "1700000000.000100",
    reactions := [] }

/-- The extreme-inequality fixture of spec §8: user A posts 9 qualifying
messages, user B posts 1, in channel "general" (n = 2, total = 10). -/
def dfExtreme : List Row :=
  List.replicate 9 (mkPeiRow "general" (some "U_A") "message") ++
    [mkPeiRow "general" (some "U_B") "message"]

/-- A perfect-equity fixture: two users with 5 qualifying messages each in
channel "team". -/
def dfEqual : List Row :=
  List.replicate 5 (mkPeiRow "team" (some "U_A") "message") ++
    List.replicate 5 (mkPeiRow "team" (some "U_B") "message")

/-- A channel whose 12 qualifying messages all lack a `user_id`. -/
def dfNoUsers : List Row :=
  List.replicate 12 (mkPeiRow "ghost" none "message")

/-- A mixed-subtype fixture: channel "eng" with a plain message, a thread
broadcast, a join event and a second user's message. -/
def dfMixed : List Row :=
  [mkPeiRow "eng" (some "U_A") "message",
   mkPeiRow "eng" (some "U_A") "thread_broadcast",
   mkPeiRow "eng" (some "U_A") "channel_join",
   mkPeiRow "eng" (some "U_B") "message"]

/-- A raw Slack message carrying no `subtype` key. -/
def msgNoSubtype : SlackMsg :=
  { ts := "1700000002.000300", text := some "hello", mtype := some "message",
    subtype := none, user := some "U_A", thread_ts := none, reply_count := 0 }

/-- An adversarial conversation-history API: every response is ok, empty, and
persistently reports `has_more = true` together with a pagination cursor. -/
def advApi : MessageRetriever.HistReq → Except Unit MessageRetriever.HistResp :=
  fun _ => Except.ok { ok := true, messages := [], has_more := true,
                       next_cursor := some "c" }

/-- A fixed message for the single-page pagination fixture. -/
def onePageMsg : SlackMsg :=
  { ts := "1700000001.000200", text := some "hi", mtype := some "message",
    subtype := none, user := some "U_A", thread_ts := none, reply_count := 0 }

/-- A history API that always reports `has_more = true` but never returns a
pagination cursor. -/
def noCursorApi : MessageRetriever.HistReq → MessageRetriever.HistResp :=
  fun _ => { ok := true, messages := [onePageMsg], has_more := true,
             next_cursor := none }

/-- Always-throwing collaborator stubs for the failure-isolation fixtures. -/
def errInfoApi : String → Except Unit MessageRetriever.InfoResp :=
  fun _ => Except.error ()

def errHistApi : String → MessageRetriever.HistReq →
    Except Unit MessageRetriever.HistResp :=
  fun _ _ => Except.error ()

def errReplApi : String → String → MessageRetriever.HistReq →
    Except Unit MessageRetriever.HistResp :=
  fun _ _ _ => Except.error ()

def errReactApi : String → String → Except Unit MessageRetriever.ReactResp :=
  fun _ _ => Except.error ()

/-- A channel-info collaborator that always succeeds with name "general". -/
def okInfoApi : String → Except Unit MessageRetriever.InfoResp :=
  fun _ => Except.ok { ok := true, name := "general" }

/-- A reactions collaborator that always succeeds with one reaction. -/
def okReactApi : String → String → Except Unit MessageRetriever.ReactResp :=
  fun _ _ => Except.ok { ok := true, reactions := [("thumbsup", 2)] }

section Theorems

open ParticipationEquityIndex MessageRetriever

theorem mem_uniques {α : Type} [BEq α] [LawfulBEq α] (a : α) :
    ∀ l : List α, a ∈ uniques l ↔ a ∈ l := by
  intro l
  induction l with
  | nil => simp [uniques]
  | cons x xs ih =>
    simp only [uniques, List.mem_cons, List.mem_filter, Bool.not_eq_true',
      beq_eq_false_iff_ne, ne_eq, ih]
    constructor
    · rintro (rfl | ⟨h, _⟩)
      · exact Or.inl rfl
      · exact Or.inr h
    · rintro (rfl | h)
      · exact Or.inl rfl
      · by_cases hax : a = x
        · exact Or.inl hax
        · exact Or.inr ⟨h, hax⟩

theorem insertSorted_perm (x : Nat) :
    ∀ l : List Nat, (insertSorted x l).Perm (x :: l) := by
  intro l
  induction l with
  | nil => exact List.Perm.refl _
  | cons y ys ih =>
    simp only [insertSorted]
    by_cases h : x ≤ y
    · simp [h]
    · simp only [h, if_false]
      exact (ih.cons y).trans (List.Perm.swap x y ys)

theorem sortCounts_perm : ∀ l : List Nat, (sortCounts l).Perm l := by
  intro l
  induction l with
  | nil => exact List.Perm.refl _
  | cons x xs ih => exact (insertSorted_perm x (sortCounts xs)).trans (ih.cons x)

theorem length_sortCounts (l : List Nat) : (sortCounts l).length = l.length :=
  (sortCounts_perm l).length_eq

theorem sum_sortCounts (l : List Nat) : (sortCounts l).sum = l.sum :=
  (sortCounts_perm l).sum_eq

theorem weightedSum_replicate (m : Nat) (k : Nat) :
    ∀ n i : ℤ, weightedSum n i (List.replicate m k) =
      (k : ℤ) * m * (2 * i + m - n - 2) := by
  induction m with
  | zero => intro n i; simp [weightedSum]
  | succ m ih =>
    intro n i
    simp only [List.replicate_succ, weightedSum, ih]
    push_cast
    ring

theorem abs_weightedSum_le :
    ∀ (l : List Nat) (n i : ℤ), 1 ≤ i → i + l.length ≤ n + 1 →
      |weightedSum n i l| ≤ (n - 1) * (l.sum : ℤ) := by
  intro l
  induction l with
  | nil => intro n i _ _; simp [weightedSum]
  | cons x xs ih =>
    intro n i hi hlen
    have hxs : (0 : ℤ) ≤ (xs.length : ℤ) := Int.natCast_nonneg _
    have hlen' : i + (xs.length : ℤ) + 1 ≤ n + 1 := by
      have : ((x :: xs).length : ℤ) = (xs.length : ℤ) + 1 := by
        simp [List.length_cons]
      linarith [hlen, this ▸ hlen]
    have hin : i ≤ n := by linarith
    have hn1 : (0 : ℤ) ≤ n - 1 := by linarith
    have hcoef : |2 * i - n - 1| ≤ n - 1 := by
      rw [abs_le]
      constructor <;> linarith
    have hx : (0 : ℤ) ≤ (x : ℤ) := Int.natCast_nonneg _
    have hsum : (0 : ℤ) ≤ (xs.sum : ℤ) := Int.natCast_nonneg _
    have hih : |weightedSum n (i + 1) xs| ≤ (n - 1) * (xs.sum : ℤ) := by
      apply ih n (i + 1) (by linarith)
      linarith
    have hgoal : ((x :: xs).sum : ℤ) = (x : ℤ) + (xs.sum : ℤ) := by
      push_cast [List.sum_cons]
      ring
    simp only [weightedSum, hgoal]
    calc |(2 * i - n - 1) * (x : ℤ) + weightedSum n (i + 1) xs|
        ≤ |(2 * i - n - 1) * (x : ℤ)| + |weightedSum n (i + 1) xs| := abs_add _ _
      _ = |2 * i - n - 1| * (x : ℤ) + |weightedSum n (i + 1) xs| := by
          rw [abs_mul, abs_of_nonneg hx]
      _ ≤ (n - 1) * (x : ℤ) + (n - 1) * (xs.sum : ℤ) := by
          gcongr
      _ = (n - 1) * ((x : ℤ) + (xs.sum : ℤ)) := by ring

theorem computeChannel_eq_some {c : List Nat} {q : ℚ}
    (h : ParticipationEquityIndex.computeChannel c = some q) :
    2 ≤ c.length ∧ 10 ≤ c.sum ∧ q = 1 - giniOfCounts c := by
  simp only [computeChannel, MIN_MESSAGES_FOR_PEI] at h
  split_ifs at h with h1 h2 h3
  refine ⟨by omega, ?_, (Option.some.inj h).symm⟩
  rw [sum_sortCounts] at h2
  omega

theorem giniOfCounts_bounds {c : List Nat} (h2 : 2 ≤ c.length)
    (h10 : 10 ≤ c.sum) : 0 ≤ giniOfCounts c ∧ giniOfCounts c ≤ 1 := by
  have hlen : (sortCounts c).length = c.length := length_sortCounts c
  have hsum : (sortCounts c).sum = c.sum := sum_sortCounts c
  have hnpos : (0 : ℚ) < ((sortCounts c).length : ℚ) := by
    rw [hlen]; exact_mod_cast Nat.lt_of_lt_of_le (by norm_num) h2
  have htpos : (0 : ℚ) < ((sortCounts c).sum : ℚ) := by
    rw [hsum]; exact_mod_cast Nat.lt_of_lt_of_le (by norm_num) h10
  have hdenom : (0 : ℚ) < ((sortCounts c).length : ℚ) * ((sortCounts c).sum : ℚ) :=
    mul_pos hnpos htpos
  constructor
  · exact div_nonneg (abs_nonneg _) hdenom.le
  · rw [giniOfCounts, div_le_one hdenom]
    have habs : |weightedSum ((sortCounts c).length : ℤ) 1 (sortCounts c)| ≤
        (((sortCounts c).length : ℤ) - 1) * ((sortCounts c).sum : ℤ) := by
      apply abs_weightedSum_le (sortCounts c) _ 1 le_rfl
      omega
    have hmono : (((sortCounts c).length : ℤ) - 1) * ((sortCounts c).sum : ℤ) ≤
        ((sortCounts c).length : ℤ) * ((sortCounts c).sum : ℤ) := by
      have : (0 : ℤ) ≤ ((sortCounts c).sum : ℤ) := Int.natCast_nonneg _
      nlinarith
    calc |((weightedSum ((sortCounts c).length : ℤ) 1 (sortCounts c) : ℤ) : ℚ)|
        = ((|weightedSum ((sortCounts c).length : ℤ) 1 (sortCounts c)| : ℤ) : ℚ) := by
          rw [Int.cast_abs]
      _ ≤ ((((sortCounts c).length : ℤ) * ((sortCounts c).sum : ℤ) : ℤ) : ℚ) := by
          exact_mod_cast le_trans habs hmono
      _ = ((sortCounts c).length : ℚ) * ((sortCounts c).sum : ℚ) := by
          rw [Int.cast_mul, Int.cast_natCast, Int.cast_natCast]

theorem mem_compute {df : List Row} {ch : String} {q : ℚ} :
    (ch, q) ∈ ParticipationEquityIndex.compute df ↔
      ch ∈ channelsOf df ∧
        ParticipationEquityIndex.computeChannel (channelCounts df ch) = some q := by
  simp only [ParticipationEquityIndex.compute, List.mem_filterMap]
  constructor
  · rintro ⟨ch', hmem, hf⟩
    rw [Option.map_eq_some'] at hf
    obtain ⟨a, ha, hpair⟩ := hf
    have hch : ch' = ch := congrArg Prod.fst hpair
    have hq : a = q := congrArg Prod.snd hpair
    subst hch
    subst hq
    exact ⟨hmem, ha⟩
  · rintro ⟨hmem, hcc⟩
    exact ⟨ch, hmem, by rw [hcc]; rfl⟩

theorem compute_dfExtreme_eq :
    ParticipationEquityIndex.compute dfExtreme = [("general", 3 / 5)] := by
  have h1 : channelsOf dfExtreme = ["general"] := by decide
  have h2 : channelCounts dfExtreme "general" = [9, 1] := by decide
  have h3 : ParticipationEquityIndex.computeChannel [9, 1] = some (3 / 5) := by
    norm_num [computeChannel, giniOfCounts, sortCounts, insertSorted,
      weightedSum, MIN_MESSAGES_FOR_PEI]
  simp [ParticipationEquityIndex.compute, h1, h2, h3]

/-- Claim C1 counterexample: on the two-user channel with counts 9 and 1
(n = 2, total = 10), the code does NOT produce PEI = 0.2, and the discrete
Gini formula of pei.py lines 91–95 does NOT yield 0.8. -/
theorem pei_extreme_case_counterexample :
    ("general", (1 : ℚ) / 5) ∉ ParticipationEquityIndex.compute dfExtreme ∧
      ParticipationEquityIndex.giniOfCounts [9, 1] ≠ 4 / 5 := by
  constructor
  · rw [compute_dfExtreme_eq]
    norm_num
  · norm_num [giniOfCounts, sortCounts, insertSorted, weightedSum,
      MIN_MESSAGES_FOR_PEI]

/-- Claim C1 (amended): for user A with count 9 and user B with count 1
(n = 2, total = 10), the discrete Gini formula of pei.py lines 91–95 yields
Gini = 0.4 and the computed PEI for the channel is 0.6: the weighted sum is
(2·1−2−1)·1 + (2·2−2−1)·9 = 8, so Gini = 8/20 = 2/5 and PEI = 3/5. -/
theorem pei_extreme_case :
    ParticipationEquityIndex.giniOfCounts [9, 1] = 2 / 5 ∧
      ParticipationEquityIndex.compute dfExtreme = [("general", 3 / 5)] := by
  refine ⟨?_, compute_dfExtreme_eq⟩
  norm_num [giniOfCounts, sortCounts, insertSorted, weightedSum]

/-- Claim C2: every PEI value emitted by `ParticipationEquityIndex.compute`
(which emits a value exactly for the channels with at least 2 distinct users
and total count at least 10) lies in the closed interval [0, 1]. -/
theorem pei_bounds (df : List Row) (p : String × ℚ)
    (hp : p ∈ ParticipationEquityIndex.compute df) : 0 ≤ p.2 ∧ p.2 ≤ 1 := by
  obtain ⟨ch, q⟩ := p
  rw [mem_compute] at hp
  obtain ⟨-, hcc⟩ := hp
  obtain ⟨h2, h10, hq⟩ := computeChannel_eq_some hcc
  obtain ⟨hg0, hg1⟩ := giniOfCounts_bounds h2 h10
  subst hq
  exact ⟨show (0 : ℚ) ≤ 1 - giniOfCounts (channelCounts df ch) by linarith,
    show 1 - giniOfCounts (channelCounts df ch) ≤ (1 : ℚ) by linarith⟩

/-- Witness for C2 at the concrete fixture `dfExtreme`. -/
theorem pei_bounds_witness : (0 : ℚ) ≤ 3 / 5 ∧ (3 / 5 : ℚ) ≤ 1 :=
  pei_bounds dfExtreme ("general", 3 / 5)
    (by rw [compute_dfExtreme_eq]; exact List.mem_cons_self _ _)

/-- Claim C3: a channel whose per-user counts are n ≥ 2 copies of the same
k ≥ 5 (so total = n·k ≥ 10) receives PEI exactly 1 (Gini = 0). -/
theorem pei_perfect_equity (df : List Row) (ch : String) (n k : Nat)
    (hn : 2 ≤ n) (hk : 5 ≤ k)
    (hc : channelCounts df ch = List.replicate n k) :
    (ch, (1 : ℚ)) ∈ ParticipationEquityIndex.compute df := by
  rw [mem_compute]
  constructor
  · have hlen : (channelUsers df ch).length = n := by
      have hlc := congrArg List.length hc
      simpa [channelCounts] using hlc
    have hne : channelUsers df ch ≠ [] := by
      intro h0
      rw [h0] at hlen
      simp at hlen
      omega
    obtain ⟨u, hu⟩ := List.exists_mem_of_ne_nil _ hne
    rw [channelUsers, mem_uniques, List.mem_filterMap] at hu
    obtain ⟨r, hr, hru⟩ := hu
    by_cases hb : (r.channel_name == ch) = true
    · have hrch : r.channel_name = ch := eq_of_beq hb
      have hrdf : r ∈ df := List.mem_of_mem_filter hr
      rw [channelsOf, mem_uniques, List.mem_map]
      exact ⟨r, hrdf, hrch⟩
    · simp [hb] at hru
  · rw [hc]
    have hsort : sortCounts (List.replicate n k) = List.replicate n k :=
      List.perm_replicate.mp (sortCounts_perm _)
    have hrlen : (List.replicate n k).length = n := List.length_replicate n k
    have hrsum : (List.replicate n k).sum = n * k := by
      simp [List.sum_replicate, smul_eq_mul]
    have hW : weightedSum (n : ℤ) 1 (List.replicate n k) = 0 := by
      rw [weightedSum_replicate]
      ring
    have hgini : giniOfCounts (List.replicate n k) = 0 := by
      rw [giniOfCounts, hsort, hrlen, hW]
      simp
    simp only [computeChannel, MIN_MESSAGES_FOR_PEI, hsort, hrlen, hrsum]
    have h10 : 10 ≤ n * k := le_trans (by norm_num) (Nat.mul_le_mul hn hk)
    rw [if_neg (by omega), if_neg (by omega), if_neg (by omega), hgini]
    norm_num

/-- Witness for C3 at the concrete fixture `dfEqual` (2 users, 5 each). -/
theorem pei_perfect_equity_witness :
    ("team", (1 : ℚ)) ∈ ParticipationEquityIndex.compute dfEqual :=
  pei_perfect_equity dfEqual "team" 2 5 (by norm_num) (by norm_num) (by decide)

/-- Claim C4: a channel appears in the PEI result only if it has at least 2
distinct posting users and their qualifying messages total at least 10;
channels with a single poster or fewer than 10 qualifying messages are
omitted, never given a number. -/
theorem pei_requires_two_users_and_ten_messages (df : List Row) (ch : String)
    (q : ℚ) (h : (ch, q) ∈ ParticipationEquityIndex.compute df) :
    2 ≤ (channelUsers df ch).length ∧ 10 ≤ (channelCounts df ch).sum := by
  rw [mem_compute] at h
  obtain ⟨-, hcc⟩ := h
  obtain ⟨h2, h10, -⟩ := computeChannel_eq_some hcc
  have hlen : (channelCounts df ch).length = (channelUsers df ch).length := by
    simp [channelCounts]
  exact ⟨hlen ▸ h2, h10⟩

/-- Witness for C4 at the concrete fixture `dfExtreme`. -/
theorem pei_requires_two_users_and_ten_messages_witness :
    2 ≤ (channelUsers dfExtreme "general").length ∧
      10 ≤ (channelCounts dfExtreme "general").sum :=
  pei_requires_two_users_and_ten_messages dfExtreme "general" (3 / 5)
    (by rw [compute_dfExtreme_eq]; exact List.mem_cons_self _ _)

/-- Claim C5: the PEI per-user count of `(ch, u)` counts exactly the rows with
subtype "message" or "thread_broadcast" (any other subtype contributes
nothing), and the retriever gives a message lacking a subtype the default
subtype "message", so it counts. -/
theorem pei_subtype_filter :
    (∀ (df : List Row) (ch u : String),
      countFor df ch u = (df.filter (fun r =>
        (r.channel_name == ch && r.user_id == some u) &&
          (r.subtype == "message" || r.subtype == "thread_broadcast"))).length) ∧
    ∀ (cid name : String) (m : SlackMsg), m.subtype = none →
      (MessageRetriever.mainRow cid name m).subtype = "message" := by
  constructor
  · intro df ch u
    rw [countFor, validMessages, List.filter_filter]
  · intro cid name m hm
    simp [MessageRetriever.mainRow, hm]

/-- Witness for C5 at the concrete fixtures `dfMixed` and `msgNoSubtype`. -/
theorem pei_subtype_filter_witness :
    countFor dfMixed "eng" "U_A" = (dfMixed.filter (fun r =>
        (r.channel_name == "eng" && r.user_id == some "U_A") &&
          (r.subtype == "message" || r.subtype == "thread_broadcast"))).length ∧
      (MessageRetriever.mainRow "C9" "eng" msgNoSubtype).subtype = "message" :=
  ⟨pei_subtype_filter.1 dfMixed "eng" "U_A",
    pei_subtype_filter.2 "C9" "eng" msgNoSubtype rfl⟩

/-- Claim C10: a row with a null `user_id` contributes nothing to any
channel's per-user counts (pandas drops null group keys), and a channel all
of whose qualifying rows lack a `user_id` gets no entry in the PEI result. -/
theorem pei_null_users_dropped :
    (∀ (df : List Row) (r : Row) (ch : String), r.user_id = none →
      channelCounts (df ++ [r]) ch = channelCounts df ch) ∧
    ∀ (df : List Row) (ch : String),
      (∀ r ∈ df, r.channel_name = ch →
        (r.subtype = "message" ∨ r.subtype = "thread_broadcast") →
        r.user_id = none) →
      ∀ q : ℚ, (ch, q) ∉ ParticipationEquityIndex.compute df := by
  constructor
  · intro df r ch hr
    have hvalid : validMessages (df ++ [r]) =
        validMessages df ++ validMessages [r] := List.filter_append _ _
    have husers : ∀ ch' : String, channelUsers (df ++ [r]) ch' = channelUsers df ch' := by
      intro ch'
      rw [channelUsers, channelUsers, hvalid, List.filterMap_append]
      have hnone : List.filterMap
          (fun r' => if r'.channel_name == ch' then r'.user_id else none)
          (validMessages [r]) = [] := by
        rw [validMessages]
        cases hb : (r.subtype == "message" || r.subtype == "thread_broadcast") with
        | false => simp [List.filter, hb]
        | true =>
          simp only [List.filter, hb]
          simp [List.filterMap, hr]
      rw [hnone, List.append_nil]
    have hcount : ∀ u : String, countFor (df ++ [r]) ch u = countFor df ch u := by
      intro u
      rw [countFor, countFor, hvalid, List.filter_append]
      have hnone : (validMessages [r]).filter
          (fun r' => r'.channel_name == ch && r'.user_id == some u) = [] := by
        rw [validMessages]
        cases hb : (r.subtype == "message" || r.subtype == "thread_broadcast") with
        | false => simp [List.filter, hb]
        | true =>
          simp only [List.filter, hb]
          simp [List.filter, hr]
      rw [hnone, List.append_nil]
    rw [channelCounts, channelCounts, husers ch]
    exact List.map_congr_left (fun u _ => hcount u)
  · intro df ch hall q hmem
    rw [mem_compute] at hmem
    obtain ⟨-, hcc⟩ := hmem
    have husers : channelUsers df ch = [] := by
      by_contra hne
      obtain ⟨u, hu⟩ := List.exists_mem_of_ne_nil _ hne
      rw [channelUsers, mem_uniques, List.mem_filterMap] at hu
      obtain ⟨r, hr, hru⟩ := hu
      rw [validMessages, List.mem_filter] at hr
      obtain ⟨hrdf, hrp⟩ := hr
      by_cases hb : (r.channel_name == ch) = true
      · have hsub : r.subtype = "message" ∨ r.subtype = "thread_broadcast" := by
          simpa using hrp
        have hnone := hall r hrdf (eq_of_beq hb) hsub
        rw [if_pos hb, hnone] at hru
        cases hru
      · rw [if_neg hb] at hru
        cases hru
    have hcounts : channelCounts df ch = [] := by
      rw [channelCounts, husers]
      rfl
    rw [hcounts] at hcc
    simp [computeChannel] at hcc

/-- Witness for C10 at the concrete fixtures `dfExtreme` (appending a
null-user row changes nothing) and `dfNoUsers` (all-null channel omitted). -/
theorem pei_null_users_dropped_witness :
    channelCounts (dfExtreme ++ [mkPeiRow "general" none "message"]) "general" =
        channelCounts dfExtreme "general" ∧
      ("ghost", (1 : ℚ)) ∉ ParticipationEquityIndex.compute dfNoUsers :=
  ⟨pei_null_users_dropped.1 dfExtreme (mkPeiRow "general" none "message")
      "general" rfl,
    pei_null_users_dropped.2 dfNoUsers "ghost" (by decide) 1⟩

theorem dedupAux_sublist :
    ∀ (l : List Row) (seen), (dedupAux seen l).Sublist l := by
  intro l
  induction l with
  | nil => intro seen; simp [dedupAux]
  | cons r rs ih =>
    intro seen
    by_cases h : dedupKey r ∈ seen
    · rw [dedupAux, if_pos h]
      exact (ih seen).cons r
    · rw [dedupAux, if_neg h]
      exact (ih _).cons₂ r

theorem dedupAux_idempotent :
    ∀ (l : List Row) (seen), dedupAux seen (dedupAux seen l) = dedupAux seen l := by
  intro l
  induction l with
  | nil => intro seen; rfl
  | cons r rs ih =>
    intro seen
    by_cases h : dedupKey r ∈ seen
    · rw [dedupAux, if_pos h]
      exact ih seen
    · rw [dedupAux, if_neg h, dedupAux, if_neg h]
      congr 1
      exact ih _

theorem mem_map_key_dedupAux :
    ∀ (l : List Row) (seen) (k), k ∈ (dedupAux seen l).map dedupKey ↔
      k ∈ l.map dedupKey ∧ k ∉ seen := by
  intro l
  induction l with
  | nil => intro seen k; simp [dedupAux]
  | cons r rs ih =>
    intro seen k
    by_cases h : dedupKey r ∈ seen
    · rw [dedupAux, if_pos h, ih]
      simp only [List.map_cons, List.mem_cons]
      constructor
      · rintro ⟨hk, hs⟩
        exact ⟨Or.inr hk, hs⟩
      · rintro ⟨hk | hk, hs⟩
        · exact absurd (hk ▸ h) hs
        · exact ⟨hk, hs⟩
    · rw [dedupAux, if_neg h]
      simp only [List.map_cons, List.mem_cons, ih (dedupKey r :: seen) k]
      constructor
      · rintro (rfl | ⟨hk, hs⟩)
        · exact ⟨Or.inl rfl, h⟩
        · exact ⟨Or.inr hk, fun hc => hs (Or.inr hc)⟩
      · rintro ⟨hk | hk, hs⟩
        · exact Or.inl hk
        · by_cases hkr : k = dedupKey r
          · exact Or.inl hkr
          · refine Or.inr ⟨hk, ?_⟩
            rintro (h1 | h1)
            · exact hkr h1
            · exact hs h1

theorem nodup_map_key_dedupAux :
    ∀ (l : List Row) (seen), ((dedupAux seen l).map dedupKey).Nodup := by
  intro l
  induction l with
  | nil => intro seen; simp [dedupAux]
  | cons r rs ih =>
    intro seen
    by_cases h : dedupKey r ∈ seen
    · rw [dedupAux, if_pos h]
      exact ih seen
    · rw [dedupAux, if_neg h]
      simp only [List.map_cons, List.nodup_cons]
      refine ⟨?_, ih _⟩
      intro hmem
      rw [mem_map_key_dedupAux] at hmem
      exact hmem.2 (List.mem_cons_self _ _)

theorem find?_dedupAux :
    ∀ (l : List Row) (seen) (k), k ∉ seen →
      (dedupAux seen l).find? (fun r => dedupKey r == k) =
        l.find? (fun r => dedupKey r == k) := by
  intro l
  induction l with
  | nil => intro seen k _; rfl
  | cons r rs ih =>
    intro seen k hk
    by_cases h : dedupKey r ∈ seen
    · rw [dedupAux, if_pos h]
      have hne : (dedupKey r == k) = false := by
        simp only [beq_eq_false_iff_ne, ne_eq]
        intro he
        exact hk (he ▸ h)
      rw [List.find?_cons]
      simp only [hne]
      exact ih seen k hk
    · rw [dedupAux, if_neg h]
      by_cases hp : (dedupKey r == k) = true
      · rw [List.find?_cons, List.find?_cons]
        simp only [hp]
      · have hp' : (dedupKey r == k) = false := by
          simpa using hp
        rw [List.find?_cons, List.find?_cons]
        simp only [hp']
        apply ih
        intro hc
        rcases List.mem_cons.mp hc with h1 | h1
        · exact hp (by simp [h1])
        · exact hk h1

theorem dedup_eq_nil_iff (l : List Row) : dedup l = [] ↔ l = [] := by
  cases l with
  | nil => simp [dedup, dedupAux]
  | cons r rs => simp [dedup, dedupAux]

/-- Claim C6: the deduplication step is idempotent; its output has no two rows
with the same key (channel_id, ts_str, user_id, message); it has exactly the
keys of the input; for each key it keeps the first matching row of the table;
and it preserves table order (its output is a sublist of the input). -/
theorem dedup_spec (T : List Row) :
    dedup (dedup T) = dedup T ∧
      ((dedup T).map dedupKey).Nodup ∧
      (∀ k, k ∈ (dedup T).map dedupKey ↔ k ∈ T.map dedupKey) ∧
      (∀ k, (dedup T).find? (fun r => dedupKey r == k) =
        T.find? (fun r => dedupKey r == k)) ∧
      (dedup T).Sublist T := by
  refine ⟨dedupAux_idempotent T [], nodup_map_key_dedupAux T [], ?_, ?_,
    dedupAux_sublist T []⟩
  · intro k
    rw [dedup, mem_map_key_dedupAux]
    simp
  · intro k
    exact find?_dedupAux T [] k (List.not_mem_nil k)

/-- Claim C7 (refuted; code bug): against `advApi`, an API that persistently
reports `has_more = true` and returns a cursor on every page, neither
pagination loop ever exits: for EVERY iteration budget (fuel) the loop is
still running (`= none`).  The source's `while True` loops (message_retriever.py
lines 219–262 and 297–352) have no iteration bound of their own, so the
"bounded number of pagination iterations" the spec mandates does not hold. -/
theorem pagination_unbounded :
    (∀ (fuel : Nat) (acc : List SlackMsg) (latest cursor : Option String),
      historyLoop advApi fuel acc latest cursor = none) ∧
    ∀ (fuel : Nat) (acc : List Row) (latest cursor : Option String),
      repliesLoop advApi "C001" "general" "1700000000.000100"
        fuel acc latest cursor = none := by
  constructor
  · intro fuel
    induction fuel with
    | zero => intro acc latest cursor; rfl
    | succ n ih =>
      intro acc latest cursor
      simp [historyLoop, advApi]
      exact ih acc latest (some "c")
  · intro fuel
    induction fuel with
    | zero => intro acc latest cursor; rfl
    | succ n ih =>
      intro acc latest cursor
      simp [repliesLoop, advApi]
      exact ih acc latest (some "c")

/-- Claim C8: against any API whose every response is ok, reports
`has_more = true` and returns no pagination cursor, the channel-history
pagination stops right after the first page and the result retains exactly
that first page's messages. -/
theorem pagination_stops_without_cursor (f : MessageRetriever.HistReq →
      MessageRetriever.HistResp) (fuel : Nat)
    (hok : ∀ req, (f req).ok = true)
    (hmore : ∀ req, (f req).has_more = true)
    (hcur : ∀ req, (f req).next_cursor = none)
    (hfuel : 1 ≤ fuel) :
    getChannelHistory (fun req => Except.ok (f req)) fuel =
      some (f { latest := none, cursor := none }).messages := by
  cases fuel with
  | zero => omega
  | succ n =>
    simp [getChannelHistory, historyLoop, hok, hmore, hcur]

/-- Witness for C8 at the concrete API `noCursorApi` with fuel 5. -/
theorem pagination_stops_without_cursor_witness :
    getChannelHistory (fun req => Except.ok (noCursorApi req)) 5 =
      some [onePageMsg] :=
  pagination_stops_without_cursor noCursorApi 5 (fun _ => rfl) (fun _ => rfl)
    (fun _ => rfl) (by norm_num)

/-- Claim C9: `get_channel_messages` absorbs its collaborators' failures
(modelled as `Except`-valued calls) and always returns a plain list of rows.
(a) A failing channel-list lookup yields the empty table.  (b) With a
successful lookup the result is empty exactly when every channel contributes
nothing.  (c) A channel whose info lookup fails contributes nothing.  (d) A
channel whose history fetch throws contributes nothing.  (e) When every
thread-replies fetch of a channel throws, each fetched message still
contributes its own row and the failed reply fetches contribute no rows.
(f) A throwing reactions fetch yields the empty mapping for that message, and
(g) the retained rows do not depend on the reactions collaborator at all
(only their reactions column does).  (h) A channel that contributes nothing
can be dropped without changing the result for the other channels. -/
theorem retrieval_failure_isolation
    (infoApi : String → Except Unit MessageRetriever.InfoResp)
    (histApi : String → MessageRetriever.HistReq →
      Except Unit MessageRetriever.HistResp)
    (replApi : String → String → MessageRetriever.HistReq →
      Except Unit MessageRetriever.HistResp)
    (reactApi : String → String → Except Unit MessageRetriever.ReactResp)
    (fuel : Nat) :
    (∀ e : Unit, getChannelMessages (Except.error e) infoApi histApi replApi
      reactApi fuel none = []) ∧
    (∀ channels : List String,
      (getChannelMessages (Except.ok channels) infoApi histApi replApi
          reactApi fuel none = [] ↔
        ∀ c ∈ channels, processChannel infoApi histApi replApi fuel c = [])) ∧
    (∀ c : String, getChannelInfo infoApi c = none →
      processChannel infoApi histApi replApi fuel c = []) ∧
    (∀ c : String,
      histApi c { latest := none, cursor := none } = Except.error () →
      processChannel infoApi histApi replApi fuel c = []) ∧
    (∀ (c name : String), getChannelInfo infoApi c = some name →
      (∀ tts req, replApi c tts req = Except.error ()) →
      processChannel infoApi histApi replApi fuel c =
        ((getChannelHistory (histApi c) fuel).getD []).map (mainRow c name)) ∧
    (∀ c ts : String, reactApi c ts = Except.error () →
      getMessageReactions reactApi c ts = []) ∧
    (∀ (reactApi₂ : String → String → Except Unit MessageRetriever.ReactResp)
        (tracker : Except Unit (List String)) (lst : Option (List String)),
      (getChannelMessages tracker infoApi histApi replApi reactApi fuel
          lst).map (fun r => { r with reactions := [] }) =
        (getChannelMessages tracker infoApi histApi replApi reactApi₂ fuel
          lst).map (fun r => { r with reactions := [] })) ∧
    (∀ (l₁ l₂ : List String) (c : String)
        (tracker : Except Unit (List String)),
      processChannel infoApi histApi replApi fuel c = [] →
      getChannelMessages tracker infoApi histApi replApi reactApi fuel
          (some (l₁ ++ c :: l₂)) =
        getChannelMessages tracker infoApi histApi replApi reactApi fuel
          (some (l₁ ++ l₂))) := by
  refine ⟨fun e => rfl, ?_, ?_, ?_, ?_, ?_, ?_, ?_⟩
  · intro channels
    cases channels with
    | nil => simp [getChannelMessages, resolveChannels]
    | cons c cs =>
      simp only [getChannelMessages, resolveChannels]
      rw [if_neg (by simp)]
      rw [List.map_eq_nil_iff, dedup_eq_nil_iff, List.flatMap_eq_nil_iff]
  · intro c h
    simp [processChannel, h]
  · intro c hhist
    cases hinfo : getChannelInfo infoApi c with
    | none => simp [processChannel, hinfo]
    | some name =>
      cases fuel with
      | zero => simp [processChannel, hinfo, getChannelHistory, historyLoop]
      | succ m =>
        simp [processChannel, hinfo, getChannelHistory, historyLoop, hhist]
  · intro c name hinfo hrepl
    have hreplies : ∀ tts : String,
        getThreadReplies (replApi c tts) c tts name fuel = [] := by
      intro tts
      cases fuel with
      | zero => rfl
      | succ m =>
        rw [getThreadReplies, repliesLoop,
          hrepl tts { latest := none, cursor := none }]
        rfl
    simp only [processChannel, hinfo]
    generalize (getChannelHistory (histApi c) fuel).getD [] = l
    induction l with
    | nil => rfl
    | cons m ms ih =>
      rw [List.flatMap_cons, List.map_cons, List.cons_append]
      cases hts : m.thread_ts with
      | none =>
        simp only [hts]
        rw [List.nil_append, ih]
      | some tts =>
        simp only [hts]
        by_cases hrc : 0 < m.reply_count
        · rw [if_pos hrc, hreplies tts, List.nil_append, ih]
        · rw [if_neg hrc, List.nil_append, ih]
  · intro c ts h
    simp [getMessageReactions, h]
  · intro reactApi₂ tracker lst
    cases hres : resolveChannels tracker lst with
    | error e => simp [getChannelMessages, hres]
    | ok channels =>
      by_cases hemp : channels.isEmpty = true
      · simp [getChannelMessages, hres, hemp]
      · simp only [getChannelMessages, hres]
        rw [if_neg hemp, if_neg hemp, List.map_map, List.map_map]
        rfl
  · intro l₁ l₂ c tracker h
    have hflat : (l₁ ++ c :: l₂).flatMap
        (processChannel infoApi histApi replApi fuel) =
        (l₁ ++ l₂).flatMap (processChannel infoApi histApi replApi fuel) := by
      rw [List.flatMap_append, List.flatMap_append, List.flatMap_cons, h,
        List.nil_append]
    simp only [getChannelMessages, resolveChannels]
    rw [hflat]
    by_cases hnil : l₁ ++ l₂ = []
    · rw [hnil]
      have hemL : (l₁ ++ c :: l₂).isEmpty = false := by cases l₁ <;> rfl
      rw [hemL]
      simp [dedup, dedupAux]
    · have hemL : (l₁ ++ c :: l₂).isEmpty = false := by cases l₁ <;> rfl
      have hemR : (l₁ ++ l₂).isEmpty = false := by
        cases hl : l₁ ++ l₂ with
        | nil => exact absurd hl hnil
        | cons a as => rfl
      rw [hemL, hemR]

/-- Witness for C9 at concrete collaborators with fuel 3: a throwing tracker,
a throwing channel-info lookup, a throwing history fetch, throwing
thread-replies fetches under a succeeding info lookup, a throwing reactions
fetch, reactions-independence of the retained rows, and removal of a failing
channel. -/
theorem retrieval_failure_isolation_witness :
    getChannelMessages (Except.error ()) errInfoApi errHistApi errReplApi
        errReactApi 3 none = [] ∧
      processChannel errInfoApi errHistApi errReplApi 3 "C042" = [] ∧
      processChannel okInfoApi errHistApi errReplApi 3 "C042" = [] ∧
      processChannel okInfoApi errHistApi errReplApi 3 "C042" =
        ((getChannelHistory (errHistApi "C042") 3).getD []).map
          (mainRow "C042" "general") ∧
      getMessageReactions errReactApi "C042" "1700000000.000100" = [] ∧
      (getChannelMessages (Except.ok ["C041"]) okInfoApi errHistApi errReplApi
          errReactApi 3 none).map (fun r => { r with reactions := [] }) =
        (getChannelMessages (Except.ok ["C041"]) okInfoApi errHistApi
          errReplApi okReactApi 3 none).map
            (fun r => { r with reactions := [] }) ∧
      getChannelMessages (Except.ok ["C041"]) okInfoApi errHistApi errReplApi
          errReactApi 3 (some (["C041"] ++ "C042" :: [])) =
        getChannelMessages (Except.ok ["C041"]) okInfoApi errHistApi errReplApi
          errReactApi 3 (some (["C041"] ++ [])) := by
  have h₁ := retrieval_failure_isolation errInfoApi errHistApi errReplApi
    errReactApi 3
  have h₂ := retrieval_failure_isolation okInfoApi errHistApi errReplApi
    errReactApi 3
  exact ⟨h₁.1 (), h₁.2.2.1 "C042" rfl,
    h₂.2.2.2.1 "C042" rfl,
    h₂.2.2.2.2.1 "C042" "general" rfl (fun _ _ => rfl),
    h₂.2.2.2.2.2.1 "C042" "1700000000.000100" rfl,
    h₂.2.2.2.2.2.2.1 okReactApi (Except.ok ["C041"]) none,
    h₂.2.2.2.2.2.2.2 ["C041"] [] "C042" (Except.ok ["C041"])
      (h₂.2.2.2.1 "C042" rfl)⟩

end Theorems

